import Mathlib

/-!
Verification development for the i3status-rust music blocks
(`src/blocks/music/{mbackend,utils,music,static_music}.rs` and the older
duplicated `src/blocks/static_music.rs`).

Strings are modelled at character level as `List Char` (Rust `.chars()`
view); every Rust `truncate` in this code happens at a byte index obtained
from `char_indices`, i.e. on a character boundary, so the char-level model
is exact.  D-Bus `RefArg` values are modelled as a tagged tree, following
the dynamic capabilities the source actually uses (`as_str`, `as_iter`).
-/

namespace I3Music

/-- Tagged model of a dynamically typed D-Bus `RefArg` value.  The source
only ever asks a value for `as_str` (string view) and `as_iter` (sequence
view); `i64` stands for every other wire type (integers, doubles, ...),
for which both views fail. -/
inductive RArg where
  | str (s : List Char)
  | list (xs : List RArg)
  | i64 (n : Int)

/-- `RefArg::as_str`: succeeds exactly on string values. -/
def RArg.as_str : RArg → Option (List Char)
  | .str s => some s
  | _ => none

/-- `RefArg::as_iter`: succeeds exactly on sequence values, yielding the
elements. -/
def RArg.as_iter : RArg → Option (List RArg)
  | .list xs => some xs
  | _ => none

/-- The chain applied to the value of the `xesam:artist` key in
`extract_from_metadata` (mbackend.rs lines 80-96):
`as_iter()?.nth(0)?.as_iter()?.nth(0)?.as_iter()?.nth(0)?.as_str()?`. -/
def artistFromValue (v : RArg) : Option (List Char) := do
  let l1 ← v.as_iter
  let v1 ← l1.head?
  let l2 ← v1.as_iter
  let v2 ← l2.head?
  let l3 ← v2.as_iter
  let v3 ← l3.head?
  v3.as_str

/-- The `while let Some(key) = iter.next()` loop of `extract_from_metadata`
(mbackend.rs lines 74-104).  The iterator over a D-Bus dict yields keys and
values alternately, so the loop consumes two elements per round; a missing
value, a non-string key, a malformed artist value or a non-string title
value each produce the uniform extraction error. -/
def extractGo : List RArg → List Char → List Char → Except Unit (List Char × List Char)
  | [], title, artist => .ok (title, artist)
  | [_], _, _ => .error ()
  | k :: v :: rest, title, artist =>
    match k.as_str with
    | none => .error ()
    | some ks =>
      if ks = "xesam:artist".toList then
        match artistFromValue v with
        | none => .error ()
        | some ar => extractGo rest title ar
      else if ks = "xesam:title".toList then
        match v.as_str with
        | none => .error ()
        | some ti => extractGo rest ti artist
      else extractGo rest title artist

/-- `extract_from_metadata` (mbackend.rs lines 65-106): iterate the
payload, starting from empty title and artist. -/
def extract_from_metadata (metadata : RArg) : Except Unit (List Char × List Char) :=
  match metadata.as_iter with
  | none => .error ()
  | some l => extractGo l [] []

/-- A D-Bus dict of string keys, as the `a{sv}` `Metadata` payload is on
the wire, presented the way the flat iterator of the source sees it: keys and
values alternating. -/
def flattenDict : List (List Char × RArg) → List RArg
  | [] => []
  | (k, v) :: rest => .str k :: v :: flattenDict rest

/-- Exact ceiling division on naturals.  The source computes the trims as
`(overshoot * (len as f32 / substance)).ceil() as usize` in `f32`
(static_music.rs lines 138-149); `ceilDiv` is the exact rational ceiling
the expression denotes under exact arithmetic.  This is an idealisation:
`f32` rounding can push the computed trim one above the exact ceiling
(see `f32RawTrims`, the faithful model of the float arithmetic, and the
C10 theorems), so bounds proved about `ceilDiv` do not automatically
transfer to the program. -/
def ceilDiv (a b : Nat) : Nat := (a + b - 1) / b

/-- Wrapping `usize` subtraction, as `tlen - tnum` behaves in a release
build when the trim exceeds the length (static_music.rs lines 165-168). -/
def usizeSub (x y : Nat) : Nat :=
  (x + 18446744073709551616 - y) % 18446744073709551616

/-- The post-hoc range clamp on a keep-length:
`if ttrc < 1 || ttrc > 5000 { ttrc = 1 }` (static_music.rs lines 166-169). -/
def clampKeep (k : Nat) : Nat := if k < 1 ∨ k > 5000 then 1 else k

/-- `char_indices().nth(n)` followed by `truncate` at the returned byte
index (static_music.rs lines 112-131 and 173-177): keeps the first `n`
characters, or the whole string when it has at most `n` characters. -/
def truncToChars (s : List Char) (n : Nat) : List Char :=
  if n < s.length then s.take n else s

/-- The proportional trims before the bias checks (static_music.rs lines
136-149), under the exact-rational idealisation of the `f32` arithmetic
(`ceilDiv`).  `textlen = tlen + 3 + alen` because the separator is three
characters wide in both variants.  `f32RawTrims` below models the same
lines with the float rounding made exact; the two agree at every concrete
input this development evaluates the fit at, but not universally. -/
def rawTrims (tlen alen max : Nat) : Nat × Nat :=
  let textlen := tlen + 3 + alen
  let overshoot := textlen - max
  let substance := textlen - 3
  (ceilDiv (overshoot * tlen) substance, ceilDiv (overshoot * alen) substance)

/-- The trims after the two sequential bias checks (static_music.rs lines
151-161).  Note the order of statements in the source: each branch first zeroes
the smaller trim and only then adds the (already zeroed) variable to the
larger trim, so the larger trim is in fact left unchanged; the second
check reads the values already mutated by the first. -/
def biasedTrims (tlen alen max : Nat) : Nat × Nat :=
  let r := rawTrims tlen alen max
  let tnum := r.1
  let anum := r.2
  let anum1 := if anum < tnum ∧ anum ≤ 3 ∧ tnum + anum < tlen then 0 else anum
  let tnum1 := if anum < tnum ∧ anum ≤ 3 ∧ tnum + anum < tlen then tnum + anum1 else tnum
  let tnum2 := if tnum1 < anum1 ∧ tnum1 ≤ 3 ∧ anum1 + tnum1 < alen then 0 else tnum1
  let anum2 := if tnum1 < anum1 ∧ tnum1 ≤ 3 ∧ anum1 + tnum1 < alen then anum1 + tnum2 else anum1
  (tnum2, anum2)

/-- Floor of the base-2 logarithm, by fuel recursion (the fuel `n` always
suffices since `log2 n < n` for positive `n`). -/
def natLog2Aux : Nat → Nat → Nat
  | 0, _ => 0
  | fuel + 1, n => if 2 ≤ n then natLog2Aux fuel (n / 2) + 1 else 0

/-- Floor of the base-2 logarithm of a positive natural. -/
def natLog2 (n : Nat) : Nat := natLog2Aux n n

/-- Round the fraction `A / B` (with `B > 0`) to the nearest integer,
ties to even — the IEEE-754 default rounding. -/
def roundHalfEven (A B : Nat) : Nat :=
  if B < 2 * (A % B) then A / B + 1
  else if 2 * (A % B) < B then A / B
  else if (A / B) % 2 = 0 then A / B else A / B + 1

/-- Round `a / b` to a 24-bit mantissa at binade exponent `e`, given the
shifts `sp = (23 - e).toNat` and `sn = (e - 23).toNat`.  The result is a
dyadic pair `(m, k)` denoting the value `m / 2 ^ k`. -/
def f32FracCore (a b sp sn : Nat) : Nat × Nat :=
  if sn = 0 then (roundHalfEven (a * 2 ^ sp) b, sp)
  else (roundHalfEven a (b * 2 ^ sn) * 2 ^ sn, 0)

/-- Exact value of the IEEE-754 binary32 (Rust `f32`) nearest rounding of
the nonnegative fraction `a / b`, as a dyadic pair `(m, k)` denoting
`m / 2 ^ k`.  The binade exponent `e = ⌊log2 (a / b)⌋` is either
`log2 a - log2 b` or one less, decided by an exact comparison; the
mantissa is rounded to nearest, ties to even.  Subnormals and overflow
are outside the range character counts produce and are not modelled. -/
def f32Frac (a b : Nat) : Nat × Nat :=
  if a = 0 ∨ b = 0 then (0, 0)
  else
    let s := natLog2 a
    let t := natLog2 b
    if b * 2 ^ s ≤ a * 2 ^ t then f32FracCore a b (23 + t - s) (s - t - 23)
    else f32FracCore a b (24 + t - s) (s - t - 24)

/-- IEEE-754 binary32 division: round the exact quotient of the two
dyadic values. -/
def f32div (u v : Nat × Nat) : Nat × Nat :=
  f32Frac (u.1 * 2 ^ v.2) (v.1 * 2 ^ u.2)

/-- IEEE-754 binary32 multiplication: round the exact product of the two
dyadic values. -/
def f32mul (u v : Nat × Nat) : Nat × Nat :=
  f32Frac (u.1 * v.1) (2 ^ (u.2 + v.2))

/-- `f32::ceil` followed by `as usize`: the ceiling of a nonnegative
dyadic value, which for the magnitudes involved is exact in `f32`. -/
def f32ceilToNat (u : Nat × Nat) : Nat := (u.1 + 2 ^ u.2 - 1) / 2 ^ u.2

/-- The proportional trims of static_music.rs lines 136-149 with the
`f32` arithmetic modelled exactly: `overshoot`, `substance` and the
lengths are converted with a rounding cast, `tblm`/`ablm` are rounded
quotients, and each trim is the ceiling of the rounded product, exactly
as `(overshoot * (len as f32 / substance)).ceil() as usize` computes.
This is the faithful arithmetic model; `rawTrims` is its exact-rational
idealisation. -/
def f32RawTrims (tlen alen max : Nat) : Nat × Nat :=
  let textlen := tlen + 3 + alen
  let overshoot := f32Frac (textlen - max) 1
  let substance := f32Frac (textlen - 3) 1
  let tblm := f32div (f32Frac tlen 1) substance
  let tnum := f32ceilToNat (f32mul overshoot tblm)
  let ablm := f32div (f32Frac alen 1) substance
  let anum := f32ceilToNat (f32mul overshoot ablm)
  (tnum, anum)

/-- The trims after the two sequential bias checks (static_music.rs lines
151-161), on top of the faithful `f32` model `f32RawTrims`; the bias
logic is the same dead-store sequence as in `biasedTrims`. -/
def f32BiasedTrims (tlen alen max : Nat) : Nat × Nat :=
  let r := f32RawTrims tlen alen max
  let tnum := r.1
  let anum := r.2
  let anum1 := if anum < tnum ∧ anum ≤ 3 ∧ tnum + anum < tlen then 0 else anum
  let tnum1 := if anum < tnum ∧ anum ≤ 3 ∧ tnum + anum < tlen then tnum + anum1 else tnum
  let tnum2 := if tnum1 < anum1 ∧ tnum1 ≤ 3 ∧ anum1 + tnum1 < alen then 0 else tnum1
  let anum2 := if tnum1 < anum1 ∧ tnum1 ≤ 3 ∧ anum1 + tnum1 < alen then anum1 + tnum2 else anum1
  (tnum2, anum2)

/-- The both-sides-present branch of the fitting code in
`src/blocks/music/static_music.rs` (lines 132-187): joins with
`"{} - {}"`, and, when over budget, trims via the proportional/bias
computation and re-joins with `"{} | {}"`. -/
def fitBoth (title artist : List Char) (max : Nat) : List Char :=
  let text := title ++ " - ".toList ++ artist
  let textlen := text.length
  if textlen > max then
    let tr := biasedTrims title.length artist.length max
    let ttrc := clampKeep (usizeSub title.length tr.1)
    let atrc := clampKeep (usizeSub artist.length tr.2)
    truncToChars title ttrc ++ " | ".toList ++ truncToChars artist atrc
  else
    text

/-- The fitting step of `StaticMusic::update` in
`src/blocks/music/static_music.rs` (lines 112-187), reached when not both
fields are empty. -/
def fitText (title artist : List Char) (max : Nat) : List Char :=
  if title = [] then truncToChars artist max
  else if artist = [] then truncToChars title max
  else fitBoth title artist max

/-- The both-sides-present branch of the fitting code in the older
duplicated `src/blocks/static_music.rs` (lines 181-235): identical except
that it joins with `"{} | {}"` already in the within-budget path.  The
trim arithmetic is a verbatim duplicate, so `biasedTrims` is shared. -/
def fitBothOld (title artist : List Char) (max : Nat) : List Char :=
  let text := title ++ " | ".toList ++ artist
  if text.length > max then
    let tr := biasedTrims title.length artist.length max
    let ttrc := clampKeep (usizeSub title.length tr.1)
    let atrc := clampKeep (usizeSub artist.length tr.2)
    truncToChars title ttrc ++ " | ".toList ++ truncToChars artist atrc
  else
    text

/-- The fitting step of `StaticMusic::update` in the older duplicated
`src/blocks/static_music.rs` (lines 163-236). -/
def fitTextOld (title artist : List Char) (max : Nat) : List Char :=
  if title = [] then truncToChars artist max
  else if artist = [] then truncToChars title max
  else fitBothOld title artist max

/-- `update_play_button` (utils.rs lines 72-84): a failed `PlaybackStatus`
query or a string status other than `"Playing"` selects the `music_play`
icon; the `unwrap_or(false)` makes a non-string status fall through to
`music_pause` exactly like `"Playing"` does. -/
def update_play_button (data : Except Unit RArg) : List Char :=
  match data with
  | .error _ => "music_play".toList
  | .ok d =>
    if (d.as_str.map (fun x => x != "Playing".toList)).getD false then
      "music_play".toList
    else
      "music_pause".toList

/-- The mutable state of the static music widget
(`src/blocks/music/static_music.rs` lines 19-29).  Button widgets are
reduced to their icon; `dbus_conn` and `id` carry no update-relevant
state and the query results they produce enter `update` as explicit
arguments. -/
structure StaticMusicState where
  current_song_text : List Char
  current_song_icon : List Char
  player_avail : Bool
  play : Option (List Char)
  player : List Char
  max_width : Nat

/-- Return shape of `Block::update`: the mutated state and the
`Result<Option<Duration>>` value (duration as seconds/nanoseconds). -/
structure UpdateResult where
  state : StaticMusicState
  ret : Except Unit (Option (Nat × Nat))

/-- First phase of `StaticMusic::update` (`src/blocks/music/static_music.rs`
lines 89-189): react to the result of the `Metadata` property query.  A
failed query blanks text and icon and clears `player_avail`; extraction
errors collapse to an empty pair via `unwrap_or` and are then handled like
an absent song. -/
def StaticMusic.updateSong (s : StaticMusicState)
    (musicData : Except Unit RArg) : StaticMusicState :=
  match musicData with
  | .error _ =>
    { s with current_song_text := [], player_avail := false, current_song_icon := [] }
  | .ok metadata =>
    let ta := (extract_from_metadata metadata).toOption.getD ([], [])
    let title := ta.1
    let artist := ta.2
    if title = [] ∧ artist = [] then
      { s with player_avail := false, current_song_text := [], current_song_icon := [] }
    else
      { s with player_avail := true,
               current_song_icon := "music".toList,
               current_song_text := fitText title artist s.max_width }

/-- Second phase of `StaticMusic::update` (lines 190-193): when a play
button is configured, query `PlaybackStatus` and update its icon via
`update_play_button`. -/
def StaticMusic.updatePlay (s : StaticMusicState)
    (playbackData : Except Unit RArg) : StaticMusicState :=
  match s.play with
  | some _ => { s with play := some (update_play_button playbackData) }
  | none => s

/-- `StaticMusic::update` (`src/blocks/music/static_music.rs` lines
88-195).  `musicData` is the result of the `Metadata` property query and
`playbackData` the result of the `PlaybackStatus` query, both produced by
the external D-Bus transport.  Every path falls through to
`Ok(Some(Duration::new(1, 0)))`. -/
def StaticMusic.update (s : StaticMusicState)
    (musicData : Except Unit RArg) (playbackData : Except Unit RArg) :
    UpdateResult :=
  { state := StaticMusic.updatePlay (StaticMusic.updateSong s musicData) playbackData,
    ret := .ok (some (1, 0)) }

/-- Observable effect of a `click`: which method names were sent over the
bus, and the `Result<(), Error>` returned to the caller. -/
structure ClickEff where
  sent : List (List Char)
  res : Except Unit Unit

/-- `music_action` (mbackend.rs lines 108-123): a non-empty action name is
sent as a one-way method call (whose outcome `sendRes` the transport
determines); the empty action is a silent no-op. -/
def music_action (sendRes : Except Unit Unit) (action : List Char) : ClickEff :=
  if action ≠ [] then { sent := [action], res := sendRes }
  else { sent := [], res := .ok () }

/-- `StaticMusic::click` (`src/blocks/music/static_music.rs` lines
197-208).  The widget state is received as `self` but, as in the source,
never consulted: the dispatch is on the event name alone. -/
def StaticMusic.click (s : StaticMusicState) (sendRes : Except Unit Unit)
    (name : Option (List Char)) : ClickEff :=
  match name with
  | none => { sent := [], res := .ok () }
  | some n =>
    if n = "play".toList then music_action sendRes "PlayPause".toList
    else if n = "next".toList then music_action sendRes "Next".toList
    else if n = "prev".toList then music_action sendRes "Previous".toList
    else { sent := [], res := .ok () }

/-! ### Helper lemmas -/

/-- The clamp never returns 0. -/
lemma one_le_clampKeep (k : Nat) : 1 ≤ clampKeep k := by
  unfold clampKeep; split <;> omega

/-- The character-boundary truncation is exactly a character-level take. -/
lemma truncToChars_eq_take (s : List Char) (n : Nat) : truncToChars s n = s.take n := by
  unfold truncToChars
  split
  · rfl
  · exact (List.take_of_length_le (by omega)).symm

/-- Truncating a non-empty string to a positive length keeps it non-empty. -/
lemma truncToChars_ne_nil {s : List Char} {n : Nat} (hs : s ≠ []) (hn : 1 ≤ n) :
    truncToChars s n ≠ [] := by
  rw [truncToChars_eq_take]
  intro h
  rcases List.take_eq_nil_iff.mp h with h0 | h0
  · omega
  · exact hs h0

/-- Truncation never lengthens a string. -/
lemma truncToChars_length_le (s : List Char) (n : Nat) :
    (truncToChars s n).length ≤ s.length := by
  rw [truncToChars_eq_take, List.length_take]; omega

/-- Ceiling division bound: when the numerator factor is at most the
divisor, the quotient is at most the other factor. -/
lemma ceilDiv_mul_le {o s : Nat} (t : Nat) (hs : 0 < s) (ho : o ≤ s) :
    ceilDiv (o * t) s ≤ t := by
  unfold ceilDiv
  have hmul : o * t ≤ s * t := Nat.mul_le_mul_right t ho
  have h1 : o * t + s - 1 ≤ s - 1 + s * t := by omega
  calc (o * t + s - 1) / s ≤ (s - 1 + s * t) / s := Nat.div_le_div_right h1
    _ = (s - 1) / s + t := Nat.add_mul_div_left _ _ hs
    _ = t := by rw [Nat.div_eq_of_lt (by omega), Nat.zero_add]

/-- The biased trims never exceed the raw proportional trims: each bias
branch zeroes one trim and adds the freshly zeroed value to the other,
leaving the other unchanged. -/
lemma biasedTrims_le_rawTrims (tlen alen max : Nat) :
    (biasedTrims tlen alen max).1 ≤ (rawTrims tlen alen max).1
  ∧ (biasedTrims tlen alen max).2 ≤ (rawTrims tlen alen max).2 := by
  simp only [biasedTrims]
  split_ifs <;> simp

/-- At the concrete trim inputs this development evaluates the fit at —
the C2 trace (17, 5, 21), the small-budget underflow input (1, 1, 0) and
the C10 witness input (4, 4, 3) — the faithful `f32` model and the
exact-rational idealisation coincide, so evaluations of `fitText` at
those inputs reflect the program; at (11, 10, 3) they part ways. -/
lemma f32_matches_exact_at_evaluated_inputs :
    f32RawTrims 17 5 21 = rawTrims 17 5 21
  ∧ f32RawTrims 1 1 0 = rawTrims 1 1 0
  ∧ f32RawTrims 4 4 3 = rawTrims 4 4 3
  ∧ f32RawTrims 11 10 3 ≠ rawTrims 11 10 3 := by
  refine ⟨by decide, by decide, by decide, by decide⟩

/-- The play-button phase never touches availability or the song text. -/
lemma updatePlay_preserves (s : StaticMusicState) (pb : Except Unit RArg) :
    (StaticMusic.updatePlay s pb).player_avail = s.player_avail
  ∧ (StaticMusic.updatePlay s pb).current_song_text = s.current_song_text := by
  unfold StaticMusic.updatePlay
  cases hp : s.play <;> simp

/-- One round of the extraction loop on a string key and its value. -/
lemma extractGo_cons (k : List Char) (v : RArg) (l : List RArg) (t a : List Char) :
    extractGo (.str k :: v :: l) t a =
      if k = "xesam:artist".toList then
        match artistFromValue v with
        | none => .error ()
        | some ar => extractGo l t ar
      else if k = "xesam:title".toList then
        match v.as_str with
        | none => .error ()
        | some ti => extractGo l ti a
      else extractGo l t a := rfl

/-- Skipping an entry with an unknown key leaves the loop state unchanged. -/
lemma extractGo_skip (k : List Char) (v : RArg)
    (entries : List (List Char × RArg)) (t a : List Char)
    (hk1 : k ≠ "xesam:title".toList) (hk2 : k ≠ "xesam:artist".toList) :
    extractGo (flattenDict ((k, v) :: entries)) t a
      = extractGo (flattenDict entries) t a := by
  simp only [flattenDict]
  rw [extractGo_cons, if_neg hk2, if_neg hk1]

/-- A payload without the title and artist keys leaves the accumulators
untouched and succeeds. -/
lemma extractGo_no_keys (entries : List (List Char × RArg)) (t a : List Char)
    (h : ∀ p ∈ entries, p.1 ≠ "xesam:title".toList ∧ p.1 ≠ "xesam:artist".toList) :
    extractGo (flattenDict entries) t a = .ok (t, a) := by
  induction entries with
  | nil => rfl
  | cons p rest ih =>
    obtain ⟨k, v⟩ := p
    obtain ⟨h1, h2⟩ := h (k, v) (List.mem_cons_self _ _)
    rw [extractGo_skip k v rest t a h1 h2]
    exact ih (fun q hq => h q (List.mem_cons_of_mem _ hq))

/-- A payload containing an artist entry whose value fails the nested
decode makes the whole extraction fail, whatever else it contains. -/
lemma extractGo_bad_artist (entries : List (List Char × RArg)) (t a : List Char)
    (h : ∃ p ∈ entries, p.1 = "xesam:artist".toList ∧ artistFromValue p.2 = none) :
    extractGo (flattenDict entries) t a = .error () := by
  induction entries generalizing t a with
  | nil =>
    rcases h with ⟨q, hq, _, _⟩
    exact absurd hq (List.not_mem_nil q)
  | cons p rest ih =>
    obtain ⟨k, v⟩ := p
    rcases h with ⟨q, hq, hqa, hqv⟩
    simp only [flattenDict]
    rw [extractGo_cons]
    rcases List.mem_cons.mp hq with heq | hmem
    · subst heq
      have hk : k = "xesam:artist".toList := hqa
      have hv : artistFromValue v = none := hqv
      rw [if_pos hk, hv]
    · by_cases hk : k = "xesam:artist".toList
      · rw [if_pos hk]
        cases hav : artistFromValue v with
        | none => rfl
        | some ar => exact ih t ar ⟨q, hmem, hqa, hqv⟩
      · rw [if_neg hk]
        by_cases hk2 : k = "xesam:title".toList
        · rw [if_pos hk2]
          cases hts : v.as_str with
          | none => rfl
          | some ti => exact ih ti a ⟨q, hmem, hqa, hqv⟩
        · rw [if_neg hk2]
          exact ih t a ⟨q, hmem, hqa, hqv⟩

/-! ### Claim theorems -/

/-- C9: for every state of the static widget and every outcome of the two
property queries, `update` returns success with a suggested re-poll delay
of exactly one second; transport and extraction errors are absorbed into
the state and never propagated. -/
theorem claim9_update_total (s : StaticMusicState) (md pb : Except Unit RArg) :
    (StaticMusic.update s md pb).ret = .ok (some (1, 0)) := rfl

/-- C1 counterexample: with a play button configured, a metadata query
that succeeds with a non-empty title while the `PlaybackStatus` query
fails leaves `player_avail` true and the rendered text non-empty — only
the play icon is touched.  This refutes the claim that any query failure
during `update` blanks the text and clears `player_avail`. -/
theorem claim1_counterexample :
    (StaticMusic.update
      { current_song_text := "old".toList, current_song_icon := "music".toList,
        player_avail := true, play := some ("music_pause".toList),
        player := "spotify".toList, max_width := 21 }
      (.ok (.list (flattenDict [("xesam:title".toList, .str "a".toList)])))
      (.error ())).state.player_avail = true
    ∧ (StaticMusic.update
      { current_song_text := "old".toList, current_song_icon := "music".toList,
        player_avail := true, play := some ("music_pause".toList),
        player := "spotify".toList, max_width := 21 }
      (.ok (.list (flattenDict [("xesam:title".toList, .str "a".toList)])))
      (.error ())).state.current_song_text = "a".toList
    ∧ (StaticMusic.update
      { current_song_text := "old".toList, current_song_icon := "music".toList,
        player_avail := true, play := some ("music_pause".toList),
        player := "spotify".toList, max_width := 21 }
      (.ok (.list (flattenDict [("xesam:title".toList, .str "a".toList)])))
      (.error ())).state.play = some ("music_play".toList) := by
  exact ⟨rfl, rfl, rfl⟩

/-- C1 (amended): only a failure of the `Metadata` query forces
`player_avail = false` and an empty rendered text, regardless of the prior
state; the result of the `PlaybackStatus` query has no influence on
`player_avail` or the rendered text. -/
theorem claim1_metadata_failure_blanks (s : StaticMusicState)
    (md pb pb2 : Except Unit RArg) :
    ((StaticMusic.update s (.error ()) pb).state.player_avail = false
      ∧ (StaticMusic.update s (.error ()) pb).state.current_song_text = [])
  ∧ (StaticMusic.update s md pb).state.player_avail
      = (StaticMusic.update s md pb2).state.player_avail
  ∧ (StaticMusic.update s md pb).state.current_song_text
      = (StaticMusic.update s md pb2).state.current_song_text := by
  have h1 := updatePlay_preserves (StaticMusic.updateSong s (.error ())) pb
  have h2 := updatePlay_preserves (StaticMusic.updateSong s md) pb
  have h3 := updatePlay_preserves (StaticMusic.updateSong s md) pb2
  refine ⟨⟨?_, ?_⟩, ?_, ?_⟩
  · rw [show (StaticMusic.update s (.error ()) pb).state
        = StaticMusic.updatePlay (StaticMusic.updateSong s (.error ())) pb from rfl, h1.1]
    rfl
  · rw [show (StaticMusic.update s (.error ()) pb).state
        = StaticMusic.updatePlay (StaticMusic.updateSong s (.error ())) pb from rfl, h1.2]
    rfl
  · rw [show (StaticMusic.update s md pb).state
        = StaticMusic.updatePlay (StaticMusic.updateSong s md) pb from rfl, h2.1,
        show (StaticMusic.update s md pb2).state
        = StaticMusic.updatePlay (StaticMusic.updateSong s md) pb2 from rfl, h3.1]
  · rw [show (StaticMusic.update s md pb).state
        = StaticMusic.updatePlay (StaticMusic.updateSong s md) pb from rfl, h2.2,
        show (StaticMusic.update s md pb2).state
        = StaticMusic.updatePlay (StaticMusic.updateSong s md) pb2 from rfl, h3.2]

/-- C5 counterexample: a click event named `play` on a widget with no
play button configured still sends the `PlayPause` command — the click
handler never consults the button configuration, so it is not a no-op. -/
theorem claim5_counterexample :
    (StaticMusic.click
      { current_song_text := [], current_song_icon := [], player_avail := false,
        play := none, player := "spotify".toList, max_width := 21 }
      (.ok ()) (some ("play".toList))).sent = ["PlayPause".toList]
    ∧ ¬ (StaticMusic.click
      { current_song_text := [], current_song_icon := [], player_avail := false,
        play := none, player := "spotify".toList, max_width := 21 }
      (.ok ()) (some ("play".toList))).sent = [] := by
  exact ⟨rfl, by decide⟩

/-- C5 (amended): an event name outside play, next and prev — or an
absent name — is a no-op returning success; an event named `play` sends
the `PlayPause` command and returns the outcome of the send, regardless
of whether a play button is configured. -/
theorem claim5_click_dispatch (s : StaticMusicState)
    (sendRes : Except Unit Unit) (n : List Char)
    (hn1 : n ≠ "play".toList) (hn2 : n ≠ "next".toList) (hn3 : n ≠ "prev".toList) :
    StaticMusic.click s sendRes (some n) = { sent := [], res := .ok () }
  ∧ StaticMusic.click s sendRes none = { sent := [], res := .ok () }
  ∧ StaticMusic.click s sendRes (some ("play".toList))
      = { sent := ["PlayPause".toList], res := sendRes } := by
  refine ⟨?_, rfl, rfl⟩
  have hred : StaticMusic.click s sendRes (some n)
      = (if n = "play".toList then music_action sendRes "PlayPause".toList
         else if n = "next".toList then music_action sendRes "Next".toList
         else if n = "prev".toList then music_action sendRes "Previous".toList
         else { sent := [], res := .ok () }) := rfl
  rw [hred, if_neg hn1, if_neg hn2, if_neg hn3]

/-- C5 witness: a bogus event name on a concrete widget is a successful
no-op. -/
theorem claim5_witness :
    StaticMusic.click
      { current_song_text := [], current_song_icon := [], player_avail := false,
        play := none, player := "spotify".toList, max_width := 21 }
      (.ok ()) (some ("bogus".toList)) = { sent := [], res := .ok () } :=
  (claim5_click_dispatch _ (.ok ()) ("bogus".toList)
    (by decide) (by decide) (by decide)).1

/-- C6 counterexample: a successful `PlaybackStatus` query whose value is
not a string yields the `music_pause` icon (the playing glyph), not the
`music_play` icon the claim prescribes for every non-`Playing` status:
the `unwrap_or(false)` treats a non-string status like `Playing`. -/
theorem claim6_counterexample :
    (RArg.i64 5).as_str = none
    ∧ update_play_button (.ok (.i64 5)) = "music_pause".toList
    ∧ "music_pause".toList ≠ "music_play".toList := by
  exact ⟨rfl, rfl, by decide⟩

/-- C6 (amended): a failed `PlaybackStatus` query selects the
`music_play` icon; a string status other than `Playing` selects
`music_play`; the status `Playing` — and likewise any non-string status —
selects `music_pause`. -/
theorem claim6_play_icon (d : RArg) (st : List Char) :
    update_play_button (.error ()) = "music_play".toList
  ∧ (d.as_str = some st → st ≠ "Playing".toList →
       update_play_button (.ok d) = "music_play".toList)
  ∧ (d.as_str = some ("Playing".toList) →
       update_play_button (.ok d) = "music_pause".toList)
  ∧ (d.as_str = none → update_play_button (.ok d) = "music_pause".toList) := by
  have hred : update_play_button (.ok d)
      = (if (d.as_str.map (fun x => x != "Playing".toList)).getD false then
           "music_play".toList else "music_pause".toList) := rfl
  refine ⟨rfl, ?_, ?_, ?_⟩
  · intro h hs
    rw [hred, h]
    simp
    exact hs
  · intro h
    rw [hred, h]
    simp
  · intro h
    rw [hred, h]
    rfl

/-- C6 witness: the concrete string status `Paused` selects the
`music_play` icon. -/
theorem claim6_witness :
    update_play_button (.ok (RArg.str ("Paused".toList))) = "music_play".toList :=
  (claim6_play_icon (RArg.str ("Paused".toList)) ("Paused".toList)).2.1 rfl (by decide)

/-- C3: evaluation at the failing input title `a`, artist `b`, `max` 21.
The fitting step of the static variant in `src/blocks/music/static_music.rs`
returns the dash-joined string in the within-budget path, although its own
over-budget path and the duplicated variant in `src/blocks/static_music.rs`
join with the bar separator, which is also what the specification states. -/
theorem claim3_separator_mismatch :
    fitText "a".toList "b".toList 21 = "a - b".toList
  ∧ fitTextOld "a".toList "b".toList 21 = "a | b".toList
  ∧ "a - b".toList ≠ "a | b".toList := by
  refine ⟨by decide, by decide, by decide⟩

/-- C2: evaluation at the failing input title `Bohemian Rhapsody` (17
characters), artist `Queen` (5 characters), `max` 21.  The proportional
trims are 4 and 1 and the first bias check fires (1 < 4, 1 ≤ 3,
4 + 1 < 17), but because the source zeroes the artist trim before adding
it, the title trim stays 4 instead of growing to 5: the allocation of the
smaller trim is dropped, not shifted.  The fitted string keeps 13 title
characters accordingly. -/
theorem claim2_bias_never_shifts :
    rawTrims 17 5 21 = (4, 1)
  ∧ (1 < 4 ∧ 1 ≤ 3 ∧ 4 + 1 < 17)
  ∧ biasedTrims 17 5 21 = (4, 0)
  ∧ biasedTrims 17 5 21 ≠ (4 + 1, 0)
  ∧ fitText "Bohemian Rhapsody".toList "Queen".toList 21
      = "Bohemian Rhap | Queen".toList := by
  refine ⟨by decide, by decide, by decide, by decide, by decide⟩

/-- C7: for every string-keyed metadata payload, (1) a payload without the
title and artist keys extracts successfully to the empty pair, (2) a
payload containing an artist entry whose value does not decode as a triply
nested sequence whose first-first-first element is a string makes the
extraction fail, and (3) entries with unknown keys are ignored. -/
theorem claim7_extractor (entries : List (List Char × RArg))
    (hnone : ∀ p ∈ entries, p.1 ≠ "xesam:title".toList ∧ p.1 ≠ "xesam:artist".toList)
    (entries2 : List (List Char × RArg))
    (hbad : ∃ p ∈ entries2, p.1 = "xesam:artist".toList ∧ artistFromValue p.2 = none)
    (k : List Char) (v : RArg) (rest : List (List Char × RArg))
    (hk1 : k ≠ "xesam:title".toList) (hk2 : k ≠ "xesam:artist".toList) :
    extract_from_metadata (.list (flattenDict entries)) = .ok ([], [])
  ∧ extract_from_metadata (.list (flattenDict entries2)) = .error ()
  ∧ extract_from_metadata (.list (flattenDict ((k, v) :: rest)))
      = extract_from_metadata (.list (flattenDict rest)) := by
  refine ⟨extractGo_no_keys entries [] [] hnone,
          extractGo_bad_artist entries2 [] [] hbad,
          extractGo_skip k v rest [] [] hk1 hk2⟩

/-- C7 witness: a payload holding only an unrelated key extracts to the
empty pair; a payload whose artist value is a bare string (not nested
sequences) fails; prepending an unknown entry changes nothing. -/
theorem claim7_witness :
    extract_from_metadata
        (.list (flattenDict [("mpris:length".toList, RArg.i64 5)])) = .ok ([], [])
  ∧ extract_from_metadata
        (.list (flattenDict [("xesam:artist".toList, RArg.str ("Queen".toList))]))
      = .error ()
  ∧ extract_from_metadata
        (.list (flattenDict [("mpris:length".toList, RArg.i64 5),
                             ("xesam:title".toList, RArg.str ("a".toList))]))
      = extract_from_metadata
        (.list (flattenDict [("xesam:title".toList, RArg.str ("a".toList))])) :=
  claim7_extractor
    [("mpris:length".toList, RArg.i64 5)]
    (by
      intro p hp
      rw [List.mem_singleton] at hp
      subst hp
      exact ⟨by decide, by decide⟩)
    [("xesam:artist".toList, RArg.str ("Queen".toList))]
    ⟨("xesam:artist".toList, RArg.str ("Queen".toList)),
      List.mem_singleton.mpr rfl, rfl, rfl⟩
    ("mpris:length".toList) (RArg.i64 5)
    [("xesam:title".toList, RArg.str ("a".toList))]
    (by decide) (by decide)

/-- C8: when exactly one of title and artist is empty, the fitting step
returns the non-empty side truncated to at most `max` characters; the
result is a character-level prefix of that side, so it never cuts inside
a multi-byte character.  Both duplicated static variants agree here. -/
theorem claim8_one_side_empty (title artist : List Char) (max : Nat) :
    (title = [] → artist ≠ [] →
       fitText title artist max = artist.take max
       ∧ fitTextOld title artist max = artist.take max
       ∧ (fitText title artist max).length ≤ max
       ∧ ∃ rest, fitText title artist max ++ rest = artist)
  ∧ (artist = [] → title ≠ [] →
       fitText title artist max = title.take max
       ∧ fitTextOld title artist max = title.take max
       ∧ (fitText title artist max).length ≤ max
       ∧ ∃ rest, fitText title artist max ++ rest = title) := by
  constructor
  · intro h1 h2
    subst h1
    have hfit : fitText [] artist max = artist.take max := by
      unfold fitText
      rw [if_pos rfl, truncToChars_eq_take]
    have hfitOld : fitTextOld [] artist max = artist.take max := by
      unfold fitTextOld
      rw [if_pos rfl, truncToChars_eq_take]
    refine ⟨hfit, hfitOld, ?_, ?_⟩
    · rw [hfit, List.length_take]; omega
    · exact ⟨artist.drop max, by rw [hfit, List.take_append_drop]⟩
  · intro h1 h2
    subst h1
    have hfit : fitText title [] max = title.take max := by
      unfold fitText
      rw [if_neg h2, if_pos rfl, truncToChars_eq_take]
    have hfitOld : fitTextOld title [] max = title.take max := by
      unfold fitTextOld
      rw [if_neg h2, if_pos rfl, truncToChars_eq_take]
    refine ⟨hfit, hfitOld, ?_, ?_⟩
    · rw [hfit, List.length_take]; omega
    · exact ⟨title.drop max, by rw [hfit, List.take_append_drop]⟩

/-- C8 witness: with an empty title and the eleven-character artist
`hello world` under a budget of 5, the fit is the five-character prefix. -/
theorem claim8_witness :
    fitText [] ("hello world".toList) 5 = ("hello world".toList).take 5
    ∧ fitTextOld [] ("hello world".toList) 5 = ("hello world".toList).take 5
    ∧ (fitText [] ("hello world".toList) 5).length ≤ 5
    ∧ ∃ rest, fitText [] ("hello world".toList) 5 ++ rest = "hello world".toList :=
  (claim8_one_side_empty [] ("hello world".toList) 5).1 rfl (by decide)

/-- C4: for non-empty title and artist whose joined form exceeds the
budget, the fitted string consists of a non-empty kept title part and a
non-empty kept artist part around the bar separator, and its character
count never exceeds that of the original joined form. -/
theorem claim4_over_budget_shape (title artist : List Char) (max : Nat)
    (ht : title ≠ []) (ha : artist ≠ [])
    (hover : max < title.length + 3 + artist.length) :
    ∃ t2 a2, fitText title artist max = t2 ++ " | ".toList ++ a2
      ∧ t2 ≠ [] ∧ a2 ≠ []
      ∧ (fitText title artist max).length ≤ title.length + 3 + artist.length := by
  have hcond : (title ++ " - ".toList ++ artist).length > max := by
    simp only [List.length_append]
    have hsep : (" - ".toList : List Char).length = 3 := rfl
    omega
  have hfit : fitText title artist max
      = truncToChars title (clampKeep (usizeSub title.length
          (biasedTrims title.length artist.length max).1))
        ++ " | ".toList
        ++ truncToChars artist (clampKeep (usizeSub artist.length
          (biasedTrims title.length artist.length max).2)) := by
    unfold fitText
    rw [if_neg ht, if_neg ha]
    unfold fitBoth
    rw [if_pos hcond]
  refine ⟨_, _, hfit, ?_, ?_, ?_⟩
  · exact truncToChars_ne_nil ht (one_le_clampKeep _)
  · exact truncToChars_ne_nil ha (one_le_clampKeep _)
  · rw [hfit]
    simp only [List.length_append]
    have h1 := truncToChars_length_le title (clampKeep (usizeSub title.length
          (biasedTrims title.length artist.length max).1))
    have h2 := truncToChars_length_le artist (clampKeep (usizeSub artist.length
          (biasedTrims title.length artist.length max).2))
    have hsep : (" | ".toList : List Char).length = 3 := rfl
    omega

/-- C4 witness: the concrete over-budget pair from the specification
example produces a non-empty pair of sides within the original length. -/
theorem claim4_witness :
    ∃ t2 a2, fitText ("Bohemian Rhapsody".toList) ("Queen".toList) 21
        = t2 ++ " | ".toList ++ a2
      ∧ t2 ≠ [] ∧ a2 ≠ []
      ∧ (fitText ("Bohemian Rhapsody".toList) ("Queen".toList) 21).length
          ≤ ("Bohemian Rhapsody".toList).length + 3 + ("Queen".toList).length :=
  claim4_over_budget_shape ("Bohemian Rhapsody".toList) ("Queen".toList) 21
    (by decide) (by decide) (by decide)

/-- C10 counterexample: at title length 11 (e.g. `abcdefghijk`), artist
length 10 (e.g. `abcdefghij`) and `max = 3` — an over-budget input with
`max ≥ 3` — the `f32` arithmetic of the source rounds
`fl(21 * fl(11 / 21))` up to `11 + 2 ^ (-20)`, whose ceiling is 12: the
computed title trim exceeds the title length 11, the wrapping keep-length
subtraction underflows to `2 ^ 64 - 1`, and only the post-hoc range clamp
pulls the keep-length back to 1.  This refutes the claim that with
`max ≥ 3` the computed trims never exceed the side lengths. -/
theorem claim10_counterexample :
    ("abcdefghijk".toList).length = 11
  ∧ ("abcdefghij".toList).length = 10
  ∧ 3 ≤ 3
  ∧ (3 : Nat) < 11 + 3 + 10
  ∧ f32Frac 11 21 = (8788066, 24)
  ∧ f32RawTrims 11 10 3 = (12, 10)
  ∧ f32BiasedTrims 11 10 3 = (12, 10)
  ∧ ¬ (f32BiasedTrims 11 10 3).1 ≤ 11
  ∧ usizeSub 11 (f32BiasedTrims 11 10 3).1 = 18446744073709551615
  ∧ clampKeep (usizeSub 11 (f32BiasedTrims 11 10 3).1) = 1 := by
  refine ⟨by decide, by decide, by decide, by decide, by decide,
          by decide, by decide, by decide, by decide, by decide⟩

/-- C10 (amended): under the exact-rational idealisation of the trim
arithmetic, `max ≥ 3` keeps both trims within their side lengths and the
keep-length subtractions exact; but under the `f32` arithmetic the
program actually performs, a computed trim can exceed its side length
even with `max ≥ 3` (title length 11, artist length 10, `max = 3` gives
title trim 12), and it does for some inputs with `max < 3` (two
one-character sides and `max = 0` give trims 3); in both cases the
wrapped subtraction lands far above 5000 and only the post-hoc range
clamp pulls the keep-length back to 1. -/
theorem claim10_trims_underflow :
    (∀ (title artist : List Char) (max : Nat),
        title ≠ [] → artist ≠ [] → 3 ≤ max →
        max < title.length + 3 + artist.length →
        title.length < 18446744073709551616 →
        artist.length < 18446744073709551616 →
        (biasedTrims title.length artist.length max).1 ≤ title.length
        ∧ (biasedTrims title.length artist.length max).2 ≤ artist.length
        ∧ usizeSub title.length (biasedTrims title.length artist.length max).1
            = title.length - (biasedTrims title.length artist.length max).1
        ∧ usizeSub artist.length (biasedTrims title.length artist.length max).2
            = artist.length - (biasedTrims title.length artist.length max).2)
  ∧ (11 < (f32BiasedTrims 11 10 3).1
     ∧ 5000 < usizeSub 11 (f32BiasedTrims 11 10 3).1
     ∧ clampKeep (usizeSub 11 (f32BiasedTrims 11 10 3).1) = 1)
  ∧ (1 < (f32BiasedTrims 1 1 0).1
     ∧ 5000 < usizeSub 1 (f32BiasedTrims 1 1 0).1
     ∧ clampKeep (usizeSub 1 (f32BiasedTrims 1 1 0).1) = 1) := by
  refine ⟨?_, ⟨by decide, by decide, by decide⟩, ⟨by decide, by decide, by decide⟩⟩
  intro title artist max ht ha hmax hover htb hab
  have htl : 1 ≤ title.length := List.length_pos.mpr ht
  have hal : 1 ≤ artist.length := List.length_pos.mpr ha
  have hs : 0 < title.length + 3 + artist.length - 3 := by omega
  have ho : title.length + 3 + artist.length - max
      ≤ title.length + 3 + artist.length - 3 := by omega
  have hraw1 : (rawTrims title.length artist.length max).1 ≤ title.length := by
    simp only [rawTrims]
    exact ceilDiv_mul_le title.length hs ho
  have hraw2 : (rawTrims title.length artist.length max).2 ≤ artist.length := by
    simp only [rawTrims]
    exact ceilDiv_mul_le artist.length hs ho
  have hb := biasedTrims_le_rawTrims title.length artist.length max
  have h1 : (biasedTrims title.length artist.length max).1 ≤ title.length := by omega
  have h2 : (biasedTrims title.length artist.length max).2 ≤ artist.length := by omega
  refine ⟨h1, h2, ?_, ?_⟩
  · unfold usizeSub; omega
  · unfold usizeSub; omega

/-- C10 witness: two four-character sides under a budget of 3 keep both
trims within the side lengths and both subtractions exact. -/
theorem claim10_witness :
    (biasedTrims ("abcd".toList).length ("efgh".toList).length 3).1
        ≤ ("abcd".toList).length
    ∧ (biasedTrims ("abcd".toList).length ("efgh".toList).length 3).2
        ≤ ("efgh".toList).length
    ∧ usizeSub ("abcd".toList).length
          (biasedTrims ("abcd".toList).length ("efgh".toList).length 3).1
        = ("abcd".toList).length
          - (biasedTrims ("abcd".toList).length ("efgh".toList).length 3).1
    ∧ usizeSub ("efgh".toList).length
          (biasedTrims ("abcd".toList).length ("efgh".toList).length 3).2
        = ("efgh".toList).length
          - (biasedTrims ("abcd".toList).length ("efgh".toList).length 3).2 :=
  claim10_trims_underflow.1 ("abcd".toList) ("efgh".toList) 3
    (by decide) (by decide) (by decide) (by decide) (by decide) (by decide)

end I3Music
